import Mathlib

/-!
# Verification of the assistant-365-bridge token-lifecycle and idempotent-relay core

Shallow embedding of the repository's JavaScript core into Lean 4:

* `src/services/personalTaskSync.js` — relay normalizer, idempotency key,
  relay dispatcher (`relayToApple`);
* `src/services/taskSyncStore.js` — file-backed idempotency ledger
  (`loadStore`, `has`, `mark`);
* `src/server.js` — the `POST /webhooks/powerAutomate/todo` and
  `POST /promoteTask` request handlers modelled as pure functions of their
  inputs, the ledger state and the downstream HTTP response;
* `src/services/graphClient.js` — the task-create request-body construction;
* `src/services/persistentAuth.js` — `getAccessToken`'s shared in-flight
  promise, modelled as a small interleaving state machine.

JavaScript dynamic values are embedded as the inductive `JVal`
(`undefined` is the absence of a field, i.e. `Option.none` on lookup).
Environment configuration is the explicit `Config` record.  Wall-clock
timestamps (`new Date().toISOString()`) are explicit `String` parameters.
-/

namespace Bridge

/-- A JSON-ish JavaScript value.  A missing object property (JS `undefined`)
is represented by `Option.none` at lookup sites, not by a `JVal` constructor. -/
inductive JVal where
  | null
  | bool (b : Bool)
  | num (n : Int)
  | str (s : String)
  | arr (xs : List JVal)
  | obj (fields : List (String × JVal))

/-- JS truthiness of a `JVal` (`Boolean(v)`). -/
def jsTruthy : JVal → Bool
  | .null => false
  | .bool b => b
  | .num n => n ≠ 0
  | .str s => s ≠ ""
  | .arr _ => true
  | .obj _ => true

/-- `typeof v === 'object'` for a parsed JSON value (true for objects,
arrays and `null`). -/
def typeofObject : JVal → Bool
  | .null => true
  | .arr _ => true
  | .obj _ => true
  | _ => false

/-- Property access `v[k]`: `none` when `v` is not an object or the key is
absent (JS `undefined`). -/
def jLookup (v : JVal) (k : String) : Option JVal :=
  match v with
  | .obj fields => (fields.find? (fun p => p.1 == k)).map Prod.snd
  | _ => none

/-- Optional chaining `v?.[k]`. -/
def jLookupOpt (v : Option JVal) (k : String) : Option JVal :=
  match v with
  | some w => jLookup w k
  | none => none

/-- Whitespace as JS `String.prototype.trim` removes it (the ASCII subset;
the payload domain is ASCII JSON). -/
def isJsWhitespace (c : Char) : Bool :=
  c = ' ' || c = '\t' || c = '\n' || c = '\r' || c = '\x0b' || c = '\x0c'

/-- Drop a matching prefix (structural helper). -/
def dropWhileL (p : Char → Bool) : List Char → List Char
  | [] => []
  | c :: cs => if p c then dropWhileL p cs else c :: cs

/-- JS `s.trim()`. -/
def jsTrim (s : String) : String :=
  String.mk ((dropWhileL isJsWhitespace
    ((dropWhileL isJsWhitespace s.data.reverse).reverse)))

/-- ASCII lowering of one character (JS `toLowerCase` on the ASCII range). -/
def lowerChar (c : Char) : Char :=
  if 'A' ≤ c && c ≤ 'Z' then Char.ofNat (c.toNat + 32) else c

/-- JS `s.toLowerCase()` (ASCII range). -/
def jsToLower (s : String) : String :=
  String.mk (s.data.map lowerChar)

/-- JS `s.split(',')` on the character list. -/
def splitCommaL : List Char → List (List Char)
  | [] => [[]]
  | c :: cs =>
    let rest := splitCommaL cs
    if c = ',' then [] :: rest
    else
      match rest with
      | g :: gs => (c :: g) :: gs
      | [] => [[c]]

/-- JS `s.split(',')`. -/
def jsSplitComma (s : String) : List String :=
  (splitCommaL s.data).map String.mk

/-- `asNonEmptyString` (personalTaskSync.js): a trimmed non-empty string, else
`null`.  Applied to an optional (possibly absent) value. -/
def asNonEmptyStringJ (v : Option JVal) : Option String :=
  match v with
  | some (.str s) =>
    let t := jsTrim s
    if t = "" then none else some t
  | _ => none

/-- `asStringArray` (personalTaskSync.js). -/
def asStringArrayJ (v : Option JVal) : List String :=
  match v with
  | some (.arr xs) =>
    xs.filterMap (fun x =>
      match x with
      | .str s => if s = "" then none else some s
      | _ => none)
  | some (.str s) => ((jsSplitComma s).map jsTrim).filter (fun t => t ≠ "")
  | _ => []

/-- `pickFirst(...values)` (personalTaskSync.js): the first candidate that is
neither `undefined` nor `null`; JS `null` when all are. -/
def pickFirstJ : List (Option JVal) → Option JVal
  | [] => none
  | some .null :: rest => pickFirstJ rest
  | some v :: _ => some v
  | none :: rest => pickFirstJ rest

/-- JS `a || b` on an optional string whose `some` values are never empty. -/
def jsOrOpt (a b : Option String) : Option String :=
  match a with
  | some s => some s
  | none => b

/-- Environment configuration read by the relay path (process.env). -/
structure Config where
  defaultEventStartTime : Option String := none
  defaultEventDurationMinutes : Option Int := none
  appleCalendarName : Option String := none
  defaultTimeZone : Option String := none
  timezone : Option String := none
  appleWebhookUrl : Option String := none
  appleWebhookAuthorization : Option String := none
  appleWebhookSecret : Option String := none
  taskSyncMaxEntries : Nat := 5000

/-- Result of `normalizeDue` (personalTaskSync.js). -/
structure Due where
  dueDate : Option String
  dueDateTime : Option String
  timeZone : Option String

/-- `normalizeDue(raw)` (personalTaskSync.js lines 320-338). -/
def normalizeDue (raw : JVal) : Due :=
  let dueDate := asNonEmptyStringJ (jLookup raw "dueDate")
  let rawDDT := jLookup raw "dueDateTime"
  let dueDateTimeObj : Option JVal :=
    match rawDDT with
    | some v => if jsTruthy v && typeofObject v then some v else none
    | none => none
  let dueDateTimeStr := asNonEmptyStringJ rawDDT
  let dateTime :=
    jsOrOpt (asNonEmptyStringJ (jLookupOpt dueDateTimeObj "dateTime")) dueDateTimeStr
  let timeZone :=
    jsOrOpt (asNonEmptyStringJ (jLookupOpt dueDateTimeObj "timeZone"))
      (asNonEmptyStringJ (jLookup raw "timeZone"))
  { dueDate := dueDate, dueDateTime := dateTime, timeZone := timeZone }

/-- `/^\d{2}:\d{2}$/.test t` (personalTaskSync.js `getDefaultStartTime`). -/
def validHHMM (t : String) : Bool :=
  match t.data with
  | [a, b, c, d, e] => a.isDigit && b.isDigit && c == ':' && d.isDigit && e.isDigit
  | _ => false

/-- `getDefaultStartTime()` (personalTaskSync.js lines 340-345). -/
def getDefaultStartTime (c : Config) : String :=
  match asNonEmptyStringJ (c.defaultEventStartTime.map JVal.str) with
  | none => "08:00"
  | some t => if validHHMM t then t else "08:00"

/-- `getDefaultDurationMinutes()` (personalTaskSync.js lines 347-351).
`Number(env)` parsing of the env string is modelled as an already-parsed
optional integer; `Math.round` is the identity on integers. -/
def getDefaultDurationMinutes (c : Config) : Int :=
  match c.defaultEventDurationMinutes with
  | none => 30
  | some v => if v ≤ 0 then 30 else v

/-- `buildStartDateTime({dueDate, dueDateTime})`
(personalTaskSync.js lines 353-358). -/
def buildStartDateTime (c : Config) (dueDate dueDateTime : Option String) :
    Option String :=
  match dueDateTime with
  | some dt => some dt
  | none =>
    match dueDate with
    | none => none
    | some d => some (d ++ "T" ++ getDefaultStartTime c ++ ":00")

/-- Result of `normalizePersonalTodoTask` (personalTaskSync.js). -/
structure Normalized where
  microsoftTaskId : Option String
  title : Option String
  notes : Option String
  categories : List String
  status : Option String
  lastModifiedDateTime : Option String
  due : Due

/-- `normalizePersonalTodoTask(raw)` (personalTaskSync.js lines 368-401). -/
def normalizePersonalTodoTask (raw : JVal) : Normalized :=
  let microsoftTaskId := asNonEmptyStringJ (pickFirstJ
    [jLookup raw "microsoftTaskId", jLookup raw "taskId",
     jLookup raw "id", jLookup raw "Id"])
  let title := asNonEmptyStringJ (pickFirstJ
    [jLookup raw "title", jLookup raw "Title",
     jLookup raw "subject", jLookup raw "Subject"])
  let notes := asNonEmptyStringJ (pickFirstJ
    [jLookup raw "notes", jLookup raw "Notes",
     jLookupOpt (jLookup raw "body") "content",
     jLookupOpt (jLookup raw "body") "Content",
     jLookup raw "Body", jLookup raw "body",
     jLookup raw "description", jLookup raw "Description"])
  let categories := asStringArrayJ (pickFirstJ
    [jLookup raw "categories", jLookup raw "Categories",
     jLookup raw "category", jLookup raw "Category"])
  let status := asNonEmptyStringJ (pickFirstJ
    [jLookup raw "status", jLookup raw "Status"])
  let lastModifiedDateTime := asNonEmptyStringJ (pickFirstJ
    [jLookup raw "lastModifiedDateTime", jLookup raw "LastModifiedDateTime"])
  { microsoftTaskId := microsoftTaskId, title := title, notes := notes,
    categories := categories, status := status,
    lastModifiedDateTime := lastModifiedDateTime, due := normalizeDue raw }

/-- `isPersonalCategory(normalized)` (personalTaskSync.js lines 403-407). -/
def isPersonalCategory (n : Normalized) : Bool :=
  let cats := n.categories.map jsToLower
  cats.contains "personal" || cats.contains "category:personal" ||
    cats.contains "personal category"

/-- The canonical relay event (`buildAppleEventPayload`'s return shape). -/
structure ApplePayload where
  action : String
  calendarName : String
  title : Option String
  notes : String
  startDateTime : Option String
  durationMinutes : Int
  timeZone : Option String
  microsoftTaskId : Option String

/-- `buildAppleEventPayload(normalized)` (personalTaskSync.js lines 409-437). -/
def buildAppleEventPayload (c : Config) (n : Normalized) : ApplePayload :=
  let durationMinutes := getDefaultDurationMinutes c
  let calendarName :=
    match asNonEmptyStringJ (c.appleCalendarName.map JVal.str) with
    | some s => s
    | none => "Personal"
  let action :=
    if jsToLower (match n.status with | some s => s | none => "") = "completed"
    then "complete" else "upsert"
  let traceTag :=
    match n.microsoftTaskId with
    | some tid => "[msTodoTaskId:" ++ tid ++ "]"
    | none => "[msTodoTaskId:unknown]"
  let notesWithTrace :=
    match n.notes with
    | some ns => ns ++ "\n\n" ++ traceTag
    | none => traceTag
  let startDateTime := buildStartDateTime c n.due.dueDate n.due.dueDateTime
  { action := action, calendarName := calendarName, title := n.title,
    notes := notesWithTrace, startDateTime := startDateTime,
    durationMinutes := durationMinutes,
    timeZone := jsOrOpt n.due.timeZone
      (jsOrOpt (asNonEmptyStringJ (c.defaultTimeZone.map JVal.str))
        (asNonEmptyStringJ (c.timezone.map JVal.str))),
    microsoftTaskId := n.microsoftTaskId }

/-- Minimal JSON string escaping used by the key serialization. -/
def jsonEscape (s : String) : String :=
  String.mk (s.data.foldr
    (fun ch acc =>
      if ch = '\\' then '\\' :: '\\' :: acc
      else if ch = '"' then '\\' :: '"' :: acc
      else ch :: acc) [])

/-- `JSON.stringify` of an optional string field value. -/
def jsonOfOptStr : Option String → String
  | none => "null"
  | some s => "\"" ++ jsonEscape s ++ "\""

/-- `sha256Hex` (personalTaskSync.js line 360).  The ledger is key-opaque:
no claim depends on the hash value, only on equality and inequality of keys,
so the SHA-256 digest is modelled by the (injective) identity on the
serialized pre-image, standing in for a collision-free hash. -/
def sha256Hex (s : String) : String := s

/-- `buildIdempotencyKey(normalized, applePayload)`
(personalTaskSync.js lines 439-451): SHA-256 of the canonical JSON of
`{microsoftTaskId, title, action, startDateTime, lastModifiedDateTime}`. -/
def buildIdempotencyKey (n : Normalized) (p : ApplePayload) : String :=
  sha256Hex
    ("\x7b\"microsoftTaskId\":" ++ jsonOfOptStr n.microsoftTaskId ++
     ",\"title\":" ++ jsonOfOptStr n.title ++
     ",\"action\":" ++ jsonOfOptStr (some p.action) ++
     ",\"startDateTime\":" ++ jsonOfOptStr p.startDateTime ++
     ",\"lastModifiedDateTime\":" ++ jsonOfOptStr n.lastModifiedDateTime ++
     "\x7d")

/-- Outcome record of `relayToApple` (personalTaskSync.js lines 460-503). -/
structure RelayResult where
  sent : Bool
  status : String
  httpStatus : Option Nat
  responseText : Option String
deriving DecidableEq, Repr

/-- The downstream receiver's HTTP response (what `fetch` would observe). -/
structure HttpResponse where
  status : Nat
  body : String

/-- `response.ok` of the Fetch API: status in the inclusive range 200-299. -/
def responseOk (r : HttpResponse) : Bool :=
  200 ≤ r.status && r.status ≤ 299

/-- Truthiness of an optional env string (`if (!url)`). -/
def truthyStr : Option String → Bool
  | some s => s ≠ ""
  | none => false

/-- `relayToApple({url, authorization, secret, payload})`
(personalTaskSync.js lines 460-503), as a pure function of the configured
URL and the response the downstream receiver would return.  The second
component counts the HTTP POST requests actually issued (0 or 1). -/
def relayToApple (url : Option String) (resp : HttpResponse) :
    RelayResult × Nat :=
  if truthyStr url then
    if responseOk resp then
      ({ sent := true, status := "ok", httpStatus := some resp.status,
         responseText := some resp.body }, 1)
    else
      ({ sent := false, status := "error", httpStatus := some resp.status,
         responseText := some resp.body }, 1)
  else
    ({ sent := false, status := "not_configured", httpStatus := none,
       responseText := none }, 0)

/-! ## Idempotency ledger (`src/services/taskSyncStore.js`)

The persisted store is `{version, processed: {key: {firstSeenAt, lastSeenAt,
meta}}}`.  A JS object with string keys preserves insertion order, so
`processed` is an insertion-ordered association list with unique keys. -/

/-- One ledger entry (`{firstSeenAt, lastSeenAt, meta}`).  Entries written by
`mark` always carry ISO timestamp strings; `meta` is an arbitrary JSON value. -/
structure LedgerEntry where
  firstSeenAt : String
  lastSeenAt : String
  meta : JVal

/-- The in-memory store (`{version, processed}`).  `version` is kept as a raw
JSON value because `loadStore` preserves whatever truthy value the file held. -/
structure Ledger where
  version : JVal
  processed : List (String × LedgerEntry)

/-- JS `a || b` for strings (empty string is falsy). -/
def jsOrStr (a b : String) : String :=
  if a = "" then b else a

/-- The eviction timestamp of an entry:
`entry?.lastSeenAt || entry?.firstSeenAt || ''` (taskSyncStore.js line 91). -/
def entryT (e : LedgerEntry) : String :=
  jsOrStr e.lastSeenAt (jsOrStr e.firstSeenAt "")

/-- `Boolean(store.processed[key])` (taskSyncStore.js `has`, lines 73-76). -/
def hasProcessed (l : List (String × LedgerEntry)) (k : String) : Bool :=
  (l.find? (fun p => p.1 == k)).isSome

/-- `store.processed[key] = {firstSeenAt: old?.firstSeenAt || now,
lastSeenAt: now, meta}` — in-place update keeps an existing key's position;
a new key is appended (JS object insertion order).  The two `nowIso()` calls
of the source line are modelled by the single instant `now`. -/
def upsertEntry (now : String) (l : List (String × LedgerEntry)) (k : String)
    (meta : JVal) : List (String × LedgerEntry) :=
  if hasProcessed l k then
    l.map (fun p =>
      if p.1 == k then (p.1, ⟨jsOrStr p.2.firstSeenAt now, now, meta⟩) else p)
  else
    l ++ [(k, ⟨now, now, meta⟩)]

/-- Lexicographic character-list comparison: JS `a < b` on strings compares
code units left to right. -/
def strLtL : List Char → List Char → Bool
  | [], [] => false
  | [], _ :: _ => true
  | _ :: _, [] => false
  | a :: as, b :: bs =>
    if a < b then true else if b < a then false else strLtL as bs

/-- JS `a < b` on strings (the comparator of taskSyncStore.js line 92). -/
def jsStrLt (a b : String) : Bool := strLtL a.data b.data

/-- Stable insertion of a `(key, t)` pair into a list sorted ascending by `t`;
an element is placed after every existing element whose `t` is not greater,
matching the stable JS `Array.prototype.sort` with comparator
`(a, b) => a.t < b.t ? -1 : a.t > b.t ? 1 : 0`. -/
def insByT (x : String × String) : List (String × String) →
    List (String × String)
  | [] => [x]
  | y :: ys => if jsStrLt x.2 y.2 then x :: y :: ys else y :: insByT x ys

/-- Stable sort by `t` ascending (the `sort` of taskSyncStore.js line 92). -/
def stableSortT (l : List (String × String)) : List (String × String) :=
  l.foldl (fun acc x => insByT x acc) []

/-- `mark(key, meta)`'s effect on the `processed` map
(taskSyncStore.js lines 78-101): upsert, then evict the oldest-by-`lastSeenAt`
keys while the entry count exceeds `max`.  The source's loop of
`delete store.processed[sorted[i].k]` over the first `count` sorted keys is
the removal of that key set. -/
def markProcessed (max : Nat) (now : String) (l : List (String × LedgerEntry))
    (k : String) (meta : JVal) : List (String × LedgerEntry) :=
  let upserted := upsertEntry now l k meta
  if upserted.length > max then
    let sorted := stableSortT (upserted.map (fun p => (p.1, entryT p.2)))
    let toRemove := (sorted.take (upserted.length - max)).map Prod.fst
    upserted.filter (fun p => ¬ toRemove.contains p.1)
  else
    upserted

/-- The ledger store file's observable content. -/
inductive FileContent where
  | absent
  | invalidJson
  | parsed (v : JVal)

/-- Decode one persisted entry object.  Entries written by this system always
hold string timestamps; any other shape reads as `""` (falsy, as the `||`
fallbacks of the source treat it). -/
def decodeEntry (v : JVal) : LedgerEntry :=
  { firstSeenAt :=
      (match jLookup v "firstSeenAt" with | some (.str s) => s | _ => ""),
    lastSeenAt :=
      (match jLookup v "lastSeenAt" with | some (.str s) => s | _ => ""),
    meta := (jLookup v "meta").getD .null }

/-- Decode the `processed` map of a parsed store object. -/
def decodeProcessed (v : JVal) : List (String × LedgerEntry) :=
  match v with
  | .obj fields => fields.map (fun p => (p.1, decodeEntry p.2))
  | _ => []

/-- `loadStore(filePath)` (taskSyncStore.js lines 38-62): `ENOENT` and
unparseable/falsy/non-object content all yield the fresh store
`{version: 1, processed: {}}`; otherwise missing `processed`/`version`
fields are defaulted. -/
def loadStore (fc : FileContent) : Ledger :=
  match fc with
  | .absent => ⟨.num 1, []⟩
  | .invalidJson => ⟨.num 1, []⟩
  | .parsed v =>
    if jsTruthy v && typeofObject v then
      let processed :=
        match jLookup v "processed" with
        | some pv => if jsTruthy pv && typeofObject pv then decodeProcessed pv else []
        | none => []
      let version :=
        match jLookup v "version" with
        | some vv => if jsTruthy vv then vv else .num 1
        | none => .num 1
      ⟨version, processed⟩
    else
      ⟨.num 1, []⟩

/-- `has(key)` against the persisted file (taskSyncStore.js lines 73-76). -/
def hasFile (fc : FileContent) (k : String) : Bool :=
  hasProcessed (loadStore fc).processed k

/-- The store data `mark(key, meta)` writes back (the argument of
`atomicWriteJson`, taskSyncStore.js line 100); the temp-file-then-rename
write discipline is modelled as whole-content replacement. -/
def markFile (max : Nat) (now : String) (fc : FileContent) (k : String)
    (meta : JVal) : Ledger :=
  let st := loadStore fc
  ⟨st.version, markProcessed max now st.processed k meta⟩

/-! ## `POST /webhooks/powerAutomate/todo` (`src/server.js` lines 232-348)

The route handler, modelled as a pure function of the inbound body, the
`?force=true` flag, the configuration, the current ledger `processed` map,
the wall-clock instant, and the response the downstream receiver would give.
It returns the HTTP outcome, the ledger after the request, and the number of
downstream HTTP calls issued. -/

/-- The webhook route's possible responses (status code and `status` field). -/
inductive WebhookOutcome where
  /-- 400 `{status:'error', message:'Invalid webhook payload', errors}` -/
  | badRequest (errors : List String)
  /-- 202 `{status:'ignored', reason:'not_personal_category'}` -/
  | ignoredNotPersonal
  /-- 202 `{status:'ignored', reason:'missing_due_date'}` -/
  | ignoredMissingDue
  /-- 200 `{status:'duplicate_ignored', idempotencyKey}` -/
  | duplicateIgnored (key : String)
  /-- 200 `{status:'relayed', idempotencyKey, forwarded:true, apple:{httpStatus}}` -/
  | relayed (key : String) (httpStatus : Nat)
  /-- 202 `{status:'accepted', forwarded:false, reason:'not_configured'}` -/
  | acceptedNotConfigured
  /-- 502 `{status:'error', forwarded:false, reason:'error', apple:{...}}` -/
  | relayFailed (httpStatus : Option Nat) (responseText : Option String)
deriving DecidableEq, Repr

/-- The `meta` object passed to `mark` (server.js lines 310-314). -/
def webhookMarkMeta (n : Normalized) (p : ApplePayload) : JVal :=
  .obj [("microsoftTaskId", (n.microsoftTaskId.map JVal.str).getD .null),
        ("action", .str p.action),
        ("startDateTime", (p.startDateTime.map JVal.str).getD .null)]

/-- The inbound webhook handler (server.js lines 232-348). -/
def handleTodoWebhook (c : Config) (now : String)
    (ledger : List (String × LedgerEntry)) (raw : JVal) (force : Bool)
    (resp : HttpResponse) :
    WebhookOutcome × List (String × LedgerEntry) × Nat :=
  let normalized := normalizePersonalTodoTask raw
  let errors :=
    (if normalized.microsoftTaskId.isNone
     then ["id (Microsoft task id) is required"] else []) ++
    (if normalized.title.isNone then ["title is required"] else [])
  if errors.length > 0 then
    (.badRequest errors, ledger, 0)
  else if ¬ isPersonalCategory normalized then
    (.ignoredNotPersonal, ledger, 0)
  else
    let applePayload := buildAppleEventPayload c normalized
    if applePayload.startDateTime.isNone then
      (.ignoredMissingDue, ledger, 0)
    else
      let idempotencyKey := buildIdempotencyKey normalized applePayload
      if ¬ force && hasProcessed ledger idempotencyKey then
        (.duplicateIgnored idempotencyKey, ledger, 0)
      else
        let relayed := relayToApple c.appleWebhookUrl resp
        let relayResult := relayed.1
        let calls := relayed.2
        if relayResult.sent then
          (.relayed idempotencyKey (relayResult.httpStatus.getD 0),
           markProcessed c.taskSyncMaxEntries now ledger idempotencyKey
             (webhookMarkMeta normalized applePayload),
           calls)
        else if relayResult.status = "not_configured" then
          (.acceptedNotConfigured, ledger, calls)
        else
          (.relayFailed relayResult.httpStatus relayResult.responseText,
           ledger, calls)

/-! ## `POST /promoteTask` (`src/server.js` lines 351-433) -/

/-- `validateTaskPayload(payload)` (server.js lines 155-199): day-count
validity of `new Date('YYYY-MM-DD')` follows the proleptic Gregorian
calendar (out-of-range month/day parse to `Invalid Date`). -/
def daysInMonth (y m : Nat) : Nat :=
  if m = 2 then
    if (y % 4 = 0 && y % 100 ≠ 0) || y % 400 = 0 then 29 else 28
  else if m = 4 || m = 6 || m = 9 || m = 11 then 30
  else 31

/-- `/^\d{4}-\d{2}-\d{2}$/.test s` (server.js line 188). -/
def validDateShape (s : String) : Bool :=
  match s.data with
  | [a, b, c, d, h1, e, f, h2, g, h] =>
    a.isDigit && b.isDigit && c.isDigit && d.isDigit && h1 == '-' &&
    e.isDigit && f.isDigit && h2 == '-' && g.isDigit && h.isDigit
  | _ => false

/-- Numeric value of a digit run. -/
def digitsToNat (cs : List Char) : Nat :=
  cs.foldl (fun acc c => acc * 10 + (c.toNat - '0'.toNat)) 0

/-- `!isNaN(new Date(s).getTime())` for a string already matching
`YYYY-MM-DD` (server.js lines 191-194). -/
def validCalendarDate (s : String) : Bool :=
  match s.data with
  | [a, b, c, d, _, e, f, _, g, h] =>
    let y := digitsToNat [a, b, c, d]
    let m := digitsToNat [e, f]
    let dd := digitsToNat [g, h]
    1 ≤ m && m ≤ 12 && 1 ≤ dd && dd ≤ daysInMonth y m
  | _ => false

/-- `validateTaskPayload(payload)` (server.js lines 155-199). -/
def validateTaskPayload (p : JVal) : List String :=
  let titleErrs :=
    match jLookup p "title" with
    | some (.str s) =>
      if s = "" then ["title is required and must be a string"]
      else if jsTrim s = "" then ["title cannot be empty"]
      else if s.length > 500 then ["title must be 500 characters or less"]
      else []
    | some _ => ["title is required and must be a string"]
    | none => ["title is required and must be a string"]
  let notesErrs :=
    match jLookup p "notes" with
    | some (.str _) => []
    | some _ => ["notes must be a string"]
    | none => []
  let importanceErrs :=
    match jLookup p "importance" with
    | some (.str s) =>
      if s = "low" || s = "normal" || s = "high" then []
      else ["importance must be one of: low, normal, high"]
    | some _ => ["importance must be one of: low, normal, high"]
    | none => []
  let categoryErrs :=
    match jLookup p "category" with
    | some (.str s) =>
      if s = "work" || s = "personal" then []
      else ["category must be one of: work, personal"]
    | some _ => ["category must be one of: work, personal"]
    | none => []
  let dueDateErrs :=
    match jLookup p "dueDate" with
    | some (.str s) =>
      if ¬ validDateShape s then ["dueDate must be in YYYY-MM-DD format"]
      else if ¬ validCalendarDate s then ["dueDate is not a valid date"]
      else []
    | some _ => ["dueDate must be a string in YYYY-MM-DD format"]
    | none => []
  titleErrs ++ notesErrs ++ importanceErrs ++ categoryErrs ++ dueDateErrs

/-- Result of `normalizeTaskPayload` (server.js lines 202-212). -/
structure NormalizedTask where
  title : String
  notes : Option String
  importance : String
  category : String
  dueDate : Option String
  source : JVal
  externalId : JVal

/-- `normalizeTaskPayload(payload)` (server.js lines 202-212), reached only
after validation, so `title` is a string. -/
def normalizeTaskPayload (p : JVal) : NormalizedTask :=
  { title := (match jLookup p "title" with | some (.str s) => jsTrim s | _ => ""),
    notes :=
      (match jLookup p "notes" with
       | some (.str s) => if jsTrim s = "" then none else some (jsTrim s)
       | _ => none),
    importance :=
      (match jLookup p "importance" with
       | some (.str s) => jsOrStr s "normal"
       | _ => "normal"),
    category :=
      (match jLookup p "category" with
       | some (.str s) => jsOrStr s "personal"
       | _ => "personal"),
    dueDate :=
      (match jLookup p "dueDate" with
       | some (.str s) => if s = "" then none else some s
       | _ => none),
    source :=
      (match jLookup p "source" with
       | some v => if jsTruthy v then v else .str "unknown"
       | none => .str "unknown"),
    externalId :=
      (match jLookup p "externalId" with
       | some v => if jsTruthy v then v else .null
       | none => .null) }

/-- `isAuthenticated()` (persistentAuth.js lines 270-280): client/tenant id
configured, and either the MSAL cache holds an account or the legacy
refresh-token file exists. -/
def isAuthenticated (clientConfigured : Bool) (cachedAccounts : List String)
    (legacyFileExists : Bool) : Bool :=
  if ¬ clientConfigured then false
  else if cachedAccounts.length > 0 then true
  else legacyFileExists

/-- A successful remote create's normalized response fields. -/
structure CreatedTask where
  id : String
  title : String
  importance : String
  createdDateTime : String
  listDisplayName : String
deriving DecidableEq, Repr

/-- Outcome of the (external) `createMicrosoftTask` call. -/
inductive CreateResult where
  | ok (task : CreatedTask)
  | err (message : String)
deriving DecidableEq, Repr

/-- The `/promoteTask` route's possible responses. -/
inductive PromoteOutcome where
  /-- 400 `{status:'error', message:'Invalid request payload', errors}` -/
  | badRequest (errors : List String)
  /-- 200 `{status:'created', microsoftTaskId, list, title, importance, ...}` -/
  | created (task : CreatedTask) (dueDate : Option String)
  /-- 500 `{status:'error', message:'Failed to create task in Microsoft 365'}` -/
  | createFailed (message : String)
  /-- 200 `{status:'stubbed', message:'Task accepted but not yet sent...', echo}` -/
  | stubbed (echo : NormalizedTask)

/-- The `status` field of the JSON body each outcome sends. -/
def promoteStatusField : PromoteOutcome → String
  | .badRequest _ => "error"
  | .created _ _ => "created"
  | .createFailed _ => "error"
  | .stubbed _ => "stubbed"

/-- The HTTP status code each outcome is sent with. -/
def promoteHttpStatus : PromoteOutcome → Nat
  | .badRequest _ => 400
  | .created _ _ => 200
  | .createFailed _ => 500
  | .stubbed _ => 200

/-- The `/promoteTask` handler (server.js lines 351-433), as a function of
the request body, the authentication probe, and the result the remote
create call would produce.  The second component counts the remote
task-create calls issued (0 or 1). -/
def promoteTask (raw : JVal) (authenticated : Bool) (create : CreateResult) :
    PromoteOutcome × Nat :=
  let validationErrors := validateTaskPayload raw
  if validationErrors.length > 0 then
    (.badRequest validationErrors, 0)
  else
    let normalized := normalizeTaskPayload raw
    if authenticated then
      match create with
      | .ok task => (.created task normalized.dueDate, 1)
      | .err m => (.createFailed m, 1)
    else
      (.stubbed normalized, 0)

/-! ## Task-create request body (`src/services/graphClient.js` lines 639-700) -/

/-- `dueDateTime` object of the Graph create-task request body. -/
structure GraphDueDateTime where
  dateTime : String
  timeZone : String
deriving DecidableEq, Repr

/-- `body` object of the Graph create-task request body. -/
structure GraphTaskBody where
  content : String
  contentType : String
deriving DecidableEq, Repr

/-- The Graph create-task request body (`requestBody`, graphClient section
lines 648-667). -/
structure GraphCreateTaskBody where
  title : String
  importance : String
  body : Option GraphTaskBody
  dueDateTime : Option GraphDueDateTime
deriving DecidableEq, Repr

/-- Input fields of `createMicrosoftTask(taskData)`. -/
structure TaskData where
  title : String
  notes : Option String := none
  importance : Option String := none
  dueDate : Option String := none
  category : Option String := none

/-- Step 3 of `createMicrosoftTask` (graphClient section lines 648-667):
the request body sent to the remote task API.  The function reads no
configuration: the `17:00:00` time-of-day and the `America/Chicago`
timezone are hard-coded. -/
def createTaskRequestBody (td : TaskData) : GraphCreateTaskBody :=
  { title := td.title,
    importance :=
      (match td.importance with
       | some s => jsOrStr s "normal"
       | none => "normal"),
    body :=
      (match td.notes with
       | some n => if n = "" then none else some ⟨n, "text"⟩
       | none => none),
    dueDateTime :=
      (match td.dueDate with
       | some d =>
         if d = "" then none
         else some ⟨d ++ "T17:00:00", "America/Chicago"⟩
       | none => none) }

/-! ## Token broker in-flight promise (`src/services/persistentAuth.js` 223-261)

`getAccessToken` runs on a single JS thread; the only interleaving points are
`await`s.  The model breaks each call and the shared acquisition flight into
their atomic segments:

* a call's entry segment (the `if (inFlightTokenPromise)` check and, when the
  handle is null, the synchronous creation of the flight and assignment of
  the handle) runs with no `await` in between, so it is one atomic step;
* the flight body's suspension points — the silent attempt resolving, the
  legacy-file read resolving, and the device-code provider resolving — are
  separate steps.  The claim's premise (no cached account, no legacy
  refresh-token file) fixes the first two to resolve `null`;
* a caller resuming from its `await` of the flight is a step; the creator's
  resumption runs the `finally` that clears the handle. -/

/-- Progress of one acquisition flight (the async IIFE of lines 239-250). -/
inductive FlightPhase where
  /-- awaiting `tryAcquireTokenSilent` -/
  | silentPending
  /-- silent returned `null`; awaiting `tryAcquireTokenByLegacyRefreshToken` -/
  | legacyPending
  /-- legacy returned `null`; `acquireTokenInteractive` has issued the
  device-code challenge and awaits the provider -/
  | interactivePending
  /-- the flight's promise settled (`ok` = token obtained vs rejected/timeout) -/
  | completed (ok : Bool)
deriving DecidableEq, Repr

/-- State of one `getAccessToken` caller. -/
inductive CallerState where
  /-- has not called yet -/
  | idle
  /-- found a non-null `inFlightTokenPromise` and awaits flight `fid` -/
  | waiting (fid : Nat)
  /-- created flight `fid`; awaits it inside `try`/`finally` -/
  | creator (fid : Nat)
  /-- creator resumed; the `finally` cleared the in-flight handle -/
  | creatorDone (ok : Bool)
  /-- a waiting caller resumed with the shared flight's result -/
  | joinerDone (ok : Bool)
deriving DecidableEq, Repr

/-- Global state: the module-level `inFlightTokenPromise` handle, the flights
ever created (indexed by id), the number of device-code challenges issued
(invocations of `deviceCodeCallback`), and the callers. -/
structure AuthSys where
  inFlight : Option Nat
  flights : List FlightPhase
  challenges : Nat
  callers : List CallerState
deriving DecidableEq, Repr

/-- Initial state with `n` callers: no handle, no flight, no challenge. -/
def initAuth (n : Nat) : AuthSys :=
  ⟨none, [], 0, List.replicate n .idle⟩

/-- Scheduler events: which atomic segment runs next. -/
inductive AuthLabel where
  /-- caller `i` enters `getAccessToken` (lines 234-250) -/
  | arrive (i : Nat)
  /-- flight `fid`'s silent attempt resolves `null` (no cached account) -/
  | silentResolved (fid : Nat)
  /-- flight `fid`'s legacy-file read resolves `null` (no legacy file);
  `acquireTokenInteractive` then runs `deviceCodeCallback`: the challenge -/
  | legacyResolved (fid : Nat)
  /-- the provider settles flight `fid`'s device-code poll -/
  | providerResolved (fid : Nat) (ok : Bool)
  /-- the creator resumes from `await` and runs the `finally` (line 259) -/
  | creatorResume (i : Nat)
  /-- a waiting caller resumes from its `await` of the shared promise -/
  | joinerResume (i : Nat)
deriving DecidableEq, Repr

/-- One atomic step.  A label whose segment is not runnable in `s` is a
no-op (the scheduler cannot run a continuation that is not ready). -/
def stepAuth (s : AuthSys) : AuthLabel → AuthSys
  | .arrive i =>
    match s.callers[i]? with
    | some .idle =>
      match s.inFlight with
      | some fid => { s with callers := s.callers.set i (.waiting fid) }
      | none =>
        { s with
          inFlight := some s.flights.length,
          flights := s.flights ++ [.silentPending],
          callers := s.callers.set i (.creator s.flights.length) }
    | _ => s
  | .silentResolved fid =>
    match s.flights[fid]? with
    | some .silentPending => { s with flights := s.flights.set fid .legacyPending }
    | _ => s
  | .legacyResolved fid =>
    match s.flights[fid]? with
    | some .legacyPending =>
      { s with flights := s.flights.set fid .interactivePending,
               challenges := s.challenges + 1 }
    | _ => s
  | .providerResolved fid ok =>
    match s.flights[fid]? with
    | some .interactivePending =>
      { s with flights := s.flights.set fid (.completed ok) }
    | _ => s
  | .creatorResume i =>
    match s.callers[i]? with
    | some (.creator fid) =>
      match s.flights[fid]? with
      | some (.completed ok) =>
        { s with callers := s.callers.set i (.creatorDone ok), inFlight := none }
      | _ => s
    | _ => s
  | .joinerResume i =>
    match s.callers[i]? with
    | some (.waiting fid) =>
      match s.flights[fid]? with
      | some (.completed ok) =>
        { s with callers := s.callers.set i (.joinerDone ok) }
      | _ => s
    | _ => s

/-- Run a schedule. -/
def runAuth (s : AuthSys) (tr : List AuthLabel) : AuthSys :=
  tr.foldl stepAuth s

def isArriveL : AuthLabel → Bool
  | .arrive _ => true
  | _ => false

def isCompleteL : AuthLabel → Bool
  | .providerResolved _ _ => true
  | _ => false

/-- The schedule property "all token requests are issued concurrently":
every `arrive` occurs before any flight completion, so every caller but the
first calls `getAccessToken` while the first acquisition is in flight.
(`canArr` is the accumulator: still before any completion.) -/
def okTrace : Bool → List AuthLabel → Bool
  | _, [] => true
  | canArr, l :: rest =>
    (canArr || ¬ isArriveL l) && okTrace (canArr && ¬ isCompleteL l) rest

def reachedInteractive : FlightPhase → Bool
  | .interactivePending => true
  | .completed _ => true
  | _ => false

def notCompletedPhase : FlightPhase → Bool
  | .completed _ => false
  | _ => true

def isCreatorDone : CallerState → Bool
  | .creatorDone _ => true
  | _ => false

/-- Inductive invariant of the concurrent-burst schedules.  `canArr` is true
while no flight has completed yet. -/
def AuthInv (canArr : Bool) (s : AuthSys) : Prop :=
  s.flights.length ≤ 1 ∧
  s.challenges = (s.flights.filter reachedInteractive).length ∧
  (canArr = true →
    (∀ f ∈ s.flights, notCompletedPhase f = true) ∧
    (∀ c ∈ s.callers, isCreatorDone c = false) ∧
    (s.inFlight = none → s.flights = [])) ∧
  ((∃ c ∈ s.callers, isCreatorDone c = true) → s.inFlight = none)

/-- The idempotency key the webhook computes for this request body. -/
def webhookKey (c : Config) (raw : JVal) : String :=
  buildIdempotencyKey (normalizePersonalTodoTask raw)
    (buildAppleEventPayload c (normalizePersonalTodoTask raw))

/-- The request passes minimal validation, carries the Personal category and
resolves a start instant. -/
def WebhookGates (c : Config) (raw : JVal) : Prop :=
  (normalizePersonalTodoTask raw).microsoftTaskId ≠ none ∧
  (normalizePersonalTodoTask raw).title ≠ none ∧
  isPersonalCategory (normalizePersonalTodoTask raw) = true ∧
  (buildAppleEventPayload c (normalizePersonalTodoTask raw)).startDateTime ≠ none

/-- Witness fixture: relay URL configured. -/
def cfgRelay : Config := { appleWebhookUrl := some "https://apple.example/hook" }

/-- Witness fixture: a qualifying Personal-category webhook body (the shape of
the sample payload served by `GET /webhooks/powerAutomate/todo/sample`). -/
def rawPersonal : JVal :=
  .obj [("id", .str "AAMk1"), ("title", .str "Print pictures"),
        ("categories", .arr [.str "Personal"]),
        ("status", .str "notStarted"),
        ("lastModifiedDateTime", .str "2025-12-14T18:22:00Z"),
        ("dueDate", .str "2025-12-15")]

/-- Witness fixture: explicit `dueDateTime` object payload. -/
def rawDueObj : JVal :=
  .obj [("id", .str "AAMk2"), ("title", .str "Dentist"),
        ("categories", .arr [.str "Personal"]),
        ("dueDateTime", .obj [("dateTime", .str "2025-12-15T09:30:00"),
                              ("timeZone", .str "America/Chicago")])]

/-- Witness fixture: a minimal valid `/promoteTask` body. -/
def rawMilk : JVal := .obj [("title", .str "Buy milk")]

/-- Witness fixture: category-only payload (no id, no title). -/
def rawWorkOnly : JVal := .obj [("categories", .arr [.str "Work"])]

/-- Witness fixture: a validated Work-category payload. -/
def rawWorkValid : JVal :=
  .obj [("id", .str "AAMk3"), ("title", .str "Quarterly report"),
        ("categories", .arr [.str "Work"]), ("dueDate", .str "2025-12-16")]

/-- Witness fixture: the happy-path concurrent schedule — three callers all
arrive while the first flight is in flight; the flight runs silent → legacy →
interactive, the user completes sign-in, and everyone resumes. -/
def demoTrace : List AuthLabel :=
  [.arrive 0, .arrive 1, .silentResolved 0, .arrive 2, .legacyResolved 0,
   .providerResolved 0 true, .creatorResume 0, .joinerResume 1, .joinerResume 2]

/-- Witness fixture: the final state of `demoTrace`: one challenge, handle
cleared, every caller finished with the shared result. -/
def demoFinal : AuthSys :=
  ⟨none, [.completed true], 1,
   [.creatorDone true, .joinerDone true, .joinerDone true]⟩

/-- Witness fixture: the oldest ledger entry. -/
def entryJan1 : LedgerEntry :=
  ⟨"2025-01-01T00:00:00Z", "2025-01-01T00:00:00Z", .null⟩

/-- Witness fixture: a newer ledger entry. -/
def entryJan2 : LedgerEntry :=
  ⟨"2025-01-02T00:00:00Z", "2025-01-02T00:00:00Z", .null⟩

/-- Witness fixture: a ledger at a cap of two entries. -/
def ledgerTwo : List (String × LedgerEntry) :=
  [("k1", entryJan1), ("k2", entryJan2)]

theorem handleTodoWebhook_duplicate (c : Config) (now : String)
    (ledger : List (String × LedgerEntry)) (raw : JVal) (resp : HttpResponse)
    (hg : WebhookGates c raw)
    (hdup : hasProcessed ledger (webhookKey c raw) = true) :
    handleTodoWebhook c now ledger raw false resp =
      (.duplicateIgnored (webhookKey c raw), ledger, 0) := by
  obtain ⟨hid, htitle, hcat, hstart⟩ := hg
  unfold handleTodoWebhook
  simp only [Option.isNone_iff_eq_none]
  simp [hid, htitle, hcat, hstart, hdup, webhookKey]
  intro h
  rw [webhookKey] at hdup
  rw [h] at hdup
  exact Bool.noConfusion hdup

theorem handleTodoWebhook_relayed (c : Config) (now : String)
    (ledger : List (String × LedgerEntry)) (raw : JVal) (resp : HttpResponse)
    (hg : WebhookGates c raw)
    (hfresh : hasProcessed ledger (webhookKey c raw) = false)
    (hurl : truthyStr c.appleWebhookUrl = true)
    (hok : responseOk resp = true) :
    handleTodoWebhook c now ledger raw false resp =
      (.relayed (webhookKey c raw) resp.status,
       markProcessed c.taskSyncMaxEntries now ledger (webhookKey c raw)
         (webhookMarkMeta (normalizePersonalTodoTask raw)
           (buildAppleEventPayload c (normalizePersonalTodoTask raw))),
       1) := by
  obtain ⟨hid, htitle, hcat, hstart⟩ := hg
  rw [webhookKey] at hfresh
  unfold handleTodoWebhook relayToApple
  simp only [Option.isNone_iff_eq_none]
  simp [hid, htitle, hcat, hstart, hfresh, hurl, hok, webhookKey]

theorem handleTodoWebhook_failed (c : Config) (now : String)
    (ledger : List (String × LedgerEntry)) (raw : JVal) (resp : HttpResponse)
    (hg : WebhookGates c raw)
    (hfresh : hasProcessed ledger (webhookKey c raw) = false)
    (hurl : truthyStr c.appleWebhookUrl = true)
    (hko : responseOk resp = false) :
    handleTodoWebhook c now ledger raw false resp =
      (.relayFailed (some resp.status) (some resp.body), ledger, 1) := by
  obtain ⟨hid, htitle, hcat, hstart⟩ := hg
  rw [webhookKey] at hfresh
  unfold handleTodoWebhook relayToApple
  simp only [Option.isNone_iff_eq_none]
  simp [hid, htitle, hcat, hstart, hfresh, hurl, hko]

theorem handleTodoWebhook_notConfigured (c : Config) (now : String)
    (ledger : List (String × LedgerEntry)) (raw : JVal) (resp : HttpResponse)
    (hg : WebhookGates c raw)
    (hfresh : hasProcessed ledger (webhookKey c raw) = false)
    (hurl : truthyStr c.appleWebhookUrl = false) :
    handleTodoWebhook c now ledger raw false resp =
      (.acceptedNotConfigured, ledger, 0) := by
  obtain ⟨hid, htitle, hcat, hstart⟩ := hg
  rw [webhookKey] at hfresh
  unfold handleTodoWebhook relayToApple
  simp only [Option.isNone_iff_eq_none]
  simp [hid, htitle, hcat, hstart, hfresh, hurl]

theorem hasProcessed_append_self (l : List (String × LedgerEntry))
    (k : String) (e : LedgerEntry) :
    hasProcessed (l ++ [(k, e)]) k = true := by
  simp [hasProcessed, List.find?_append]

theorem markProcessed_no_evict (max : Nat) (now : String)
    (l : List (String × LedgerEntry)) (k : String) (meta : JVal)
    (hfresh : hasProcessed l k = false) (hlen : l.length < max) :
    markProcessed max now l k meta = l ++ [(k, ⟨now, now, meta⟩)] := by
  unfold markProcessed upsertEntry
  rw [hfresh]
  simp only [Bool.false_eq_true, if_false, List.length_append,
    List.length_singleton]
  have h2 : ¬ (l.length + 1 > max) := by omega
  simp [h2]

/-- C1: a validated, Personal, dated payload whose first submission was
delivered downstream (2xx): resubmitting a payload with the same
identity-defining fields (same idempotency key) yields `duplicate_ignored`
and issues zero downstream HTTP calls. -/
theorem second_submission_duplicate_ignored
    (c : Config) (now1 now2 : String) (ledger : List (String × LedgerEntry))
    (r1 r2 : JVal) (resp1 resp2 : HttpResponse)
    (hg1 : WebhookGates c r1) (hg2 : WebhookGates c r2)
    (hkey : webhookKey c r2 = webhookKey c r1)
    (hfresh : hasProcessed ledger (webhookKey c r1) = false)
    (hcap : ledger.length < c.taskSyncMaxEntries)
    (hurl : truthyStr c.appleWebhookUrl = true)
    (hok : responseOk resp1 = true) :
    (handleTodoWebhook c now1 ledger r1 false resp1).1 =
      .relayed (webhookKey c r1) resp1.status ∧
    handleTodoWebhook c now2 (handleTodoWebhook c now1 ledger r1 false resp1).2.1
        r2 false resp2 =
      (.duplicateIgnored (webhookKey c r1),
       (handleTodoWebhook c now1 ledger r1 false resp1).2.1, 0) := by
  have hfirst := handleTodoWebhook_relayed c now1 ledger r1 resp1 hg1 hfresh hurl hok
  refine ⟨by rw [hfirst], ?_⟩
  have hmarked :
      (handleTodoWebhook c now1 ledger r1 false resp1).2.1 =
        ledger ++ [(webhookKey c r1,
          ⟨now1, now1, webhookMarkMeta (normalizePersonalTodoTask r1)
            (buildAppleEventPayload c (normalizePersonalTodoTask r1))⟩)] := by
    rw [hfirst]
    exact markProcessed_no_evict _ now1 ledger _ _ hfresh hcap
  have hdup : hasProcessed
      (handleTodoWebhook c now1 ledger r1 false resp1).2.1
      (webhookKey c r2) = true := by
    rw [hmarked, hkey]
    exact hasProcessed_append_self ledger _ _
  have := handleTodoWebhook_duplicate c now2
    (handleTodoWebhook c now1 ledger r1 false resp1).2.1 r2 resp2 hg2 hdup
  rw [this, hkey]

/-- Witness for C1 at a concrete payload, ledger and responses. -/
theorem second_submission_duplicate_ignored_witness :
    handleTodoWebhook cfgRelay "2025-12-14T19:01:00Z"
        (handleTodoWebhook cfgRelay "2025-12-14T19:00:00Z" [] rawPersonal false
          ⟨200, "ok"⟩).2.1
        rawPersonal false ⟨201, "created"⟩ =
      (.duplicateIgnored (webhookKey cfgRelay rawPersonal),
       (handleTodoWebhook cfgRelay "2025-12-14T19:00:00Z" [] rawPersonal false
         ⟨200, "ok"⟩).2.1, 0) :=
  (second_submission_duplicate_ignored cfgRelay
    "2025-12-14T19:00:00Z" "2025-12-14T19:01:00Z" [] rawPersonal rawPersonal
    ⟨200, "ok"⟩ ⟨201, "created"⟩
    (by refine ⟨?_, ?_, ?_, ?_⟩ <;> decide)
    (by refine ⟨?_, ?_, ?_, ?_⟩ <;> decide)
    rfl rfl (by decide) rfl (by decide)).2

theorem handleTodoWebhook_mark_only_on_relayed (c : Config) (now : String)
    (ledger : List (String × LedgerEntry)) (raw : JVal) (force : Bool)
    (resp : HttpResponse) :
    ((handleTodoWebhook c now ledger raw force resp).1 =
       .relayed (webhookKey c raw) resp.status ∧
     truthyStr c.appleWebhookUrl = true ∧ responseOk resp = true) ∨
    (handleTodoWebhook c now ledger raw force resp).2.1 = ledger := by
  unfold handleTodoWebhook
  by_cases hurl : truthyStr c.appleWebhookUrl <;>
    by_cases hok : responseOk resp <;>
      simp [relayToApple, hurl, hok, webhookKey] <;>
      (repeat' split) <;> (try simp_all)

/-- C2: a key is recorded only after a confirmed 2xx delivery; a failed or
not-configured dispatch leaves the ledger unchanged, and a retry of the
identical payload is not a duplicate and re-attempts delivery. -/
theorem failed_delivery_does_not_poison_ledger
    (c : Config) (now1 now2 : String) (ledger : List (String × LedgerEntry))
    (raw : JVal) (resp1 resp2 : HttpResponse)
    (hg : WebhookGates c raw)
    (hfresh : hasProcessed ledger (webhookKey c raw) = false) :
    (∀ (f : Bool),
      ((handleTodoWebhook c now1 ledger raw f resp1).1 =
         .relayed (webhookKey c raw) resp1.status ∧
       truthyStr c.appleWebhookUrl = true ∧ responseOk resp1 = true) ∨
      (handleTodoWebhook c now1 ledger raw f resp1).2.1 = ledger) ∧
    (truthyStr c.appleWebhookUrl = false →
      handleTodoWebhook c now1 ledger raw false resp1 =
        (.acceptedNotConfigured, ledger, 0)) ∧
    (truthyStr c.appleWebhookUrl = true → responseOk resp1 = false →
      handleTodoWebhook c now1 ledger raw false resp1 =
        (.relayFailed (some resp1.status) (some resp1.body), ledger, 1) ∧
      (handleTodoWebhook c now2 ledger raw false resp2).2.2 = 1 ∧
      ∀ k, (handleTodoWebhook c now2 ledger raw false resp2).1 ≠
        .duplicateIgnored k) := by
  refine ⟨fun f => handleTodoWebhook_mark_only_on_relayed c now1 ledger raw f resp1,
    fun hurl => handleTodoWebhook_notConfigured c now1 ledger raw resp1 hg hfresh hurl,
    fun hurl hko => ⟨handleTodoWebhook_failed c now1 ledger raw resp1 hg hfresh hurl hko, ?_⟩⟩
  by_cases hok2 : responseOk resp2 = true
  · rw [handleTodoWebhook_relayed c now2 ledger raw resp2 hg hfresh hurl hok2]
    exact ⟨rfl, fun k => by simp⟩
  · rw [handleTodoWebhook_failed c now2 ledger raw resp2 hg hfresh hurl
      (Bool.not_eq_true _ ▸ Bool.eq_false_iff.mpr hok2)]
    exact ⟨rfl, fun k => by simp⟩

/-- Witness for C2 at a concrete payload: a 500 from the receiver leaves the
ledger empty and the retry issues one downstream call again. -/
theorem failed_delivery_does_not_poison_ledger_witness :
    handleTodoWebhook cfgRelay "2025-12-14T19:00:00Z" [] rawPersonal false
        ⟨500, "boom"⟩ =
      (.relayFailed (some 500) (some "boom"), [], 1) ∧
    (handleTodoWebhook cfgRelay "2025-12-14T19:05:00Z" [] rawPersonal false
        ⟨200, "ok"⟩).2.2 = 1 :=
  have h := (failed_delivery_does_not_poison_ledger cfgRelay
    "2025-12-14T19:00:00Z" "2025-12-14T19:05:00Z" [] rawPersonal
    ⟨500, "boom"⟩ ⟨200, "ok"⟩
    (by refine ⟨?_, ?_, ?_, ?_⟩ <;> decide) rfl).2.2 rfl (by decide)
  ⟨h.1, h.2.1⟩

theorem strLtL_cons_iff (a b : Char) (as bs : List Char) :
    strLtL (a :: as) (b :: bs) = true ↔
      a < b ∨ (a = b ∧ strLtL as bs = true) := by
  simp only [strLtL]
  by_cases hab : a < b
  · rw [if_pos hab]
    simp [hab]
  · by_cases hba : b < a
    · rw [if_neg hab, if_pos hba]
      simp only [Bool.false_eq_true, false_iff]
      rintro (h | ⟨rfl, h⟩)
      · exact hab h
      · exact lt_irrefl a hba
    · have heq : a = b := le_antisymm (not_lt.mp hba) (not_lt.mp hab)
      rw [if_neg hab, if_neg hba]
      subst heq
      simp

theorem strLtL_asymm : ∀ x y, strLtL x y = true → strLtL y x = false
  | [], [] => by simp [strLtL]
  | [], _ :: _ => by simp [strLtL]
  | _ :: _, [] => by simp [strLtL]
  | a :: as, b :: bs => fun h => by
    rw [Bool.eq_false_iff]
    intro h2
    rw [strLtL_cons_iff] at h h2
    rcases h with h | ⟨rfl, h⟩
    · rcases h2 with h2 | ⟨rfl, h2⟩
      · exact absurd h2 (lt_asymm h)
      · exact absurd h (lt_irrefl _)
    · rcases h2 with h2 | ⟨-, h2⟩
      · exact absurd h2 (lt_irrefl _)
      · have hrec := strLtL_asymm as bs h
        rw [h2] at hrec
        cases hrec

theorem strLtL_trans : ∀ x y z, strLtL x y = true → strLtL y z = true →
    strLtL x z = true
  | _, y, [] => fun _ h2 => by cases y <;> simp [strLtL] at h2
  | [], _, _ :: _ => fun _ _ => by simp [strLtL]
  | _ :: _, [], _ :: _ => fun h1 _ => by simp [strLtL] at h1
  | a :: as, b :: bs, c :: cs => fun h1 h2 => by
    rw [strLtL_cons_iff] at h1 h2 ⊢
    rcases h1 with h1 | ⟨rfl, h1⟩
    · rcases h2 with h2 | ⟨rfl, h2⟩
      · exact Or.inl (lt_trans h1 h2)
      · exact Or.inl h1
    · rcases h2 with h2 | ⟨rfl, h2⟩
      · exact Or.inl h2
      · exact Or.inr ⟨rfl, strLtL_trans as bs cs h1 h2⟩

theorem jsStrLt_asymm (x y : String) (h : jsStrLt x y = true) :
    jsStrLt y x = false :=
  strLtL_asymm x.data y.data h

theorem jsStrLt_trans (x y z : String) (h1 : jsStrLt x y = true)
    (h2 : jsStrLt y z = true) : jsStrLt x z = true :=
  strLtL_trans x.data y.data z.data h1 h2

theorem mem_insByT (x a : String × String) (l : List (String × String)) :
    a ∈ insByT x l ↔ a = x ∨ a ∈ l := by
  induction l with
  | nil => simp [insByT]
  | cons y ys ih =>
    unfold insByT
    by_cases h : jsStrLt x.2 y.2 = true
    · rw [if_pos h]
      simp only [List.mem_cons]
    · rw [if_neg h]
      simp only [List.mem_cons, ih]
      tauto

theorem length_insByT (x : String × String) (l : List (String × String)) :
    (insByT x l).length = l.length + 1 := by
  induction l with
  | nil => rfl
  | cons y ys ih =>
    unfold insByT
    by_cases h : jsStrLt x.2 y.2 = true
    · rw [if_pos h]
      simp
    · rw [if_neg h]
      simp [ih]

theorem sorted_insByT (x : String × String) (l : List (String × String))
    (hl : l.Pairwise (fun a b => jsStrLt b.2 a.2 = false)) :
    (insByT x l).Pairwise (fun a b => jsStrLt b.2 a.2 = false) := by
  induction l with
  | nil => simp [insByT]
  | cons y ys ih =>
    rw [List.pairwise_cons] at hl
    unfold insByT
    by_cases h : jsStrLt x.2 y.2 = true
    · rw [if_pos h]
      rw [List.pairwise_cons]
      constructor
      · intro a ha
        rcases List.mem_cons.mp ha with rfl | ha
        · exact jsStrLt_asymm _ _ h
        · by_contra hcon
          rw [Bool.not_eq_false] at hcon
          have htr := jsStrLt_trans _ _ _ hcon h
          rw [hl.1 a ha] at htr
          cases htr
      · exact List.pairwise_cons.mpr hl
    · rw [if_neg h]
      rw [List.pairwise_cons]
      constructor
      · intro a ha
        rcases (mem_insByT x a ys).mp ha with rfl | ha
        · simpa using h
        · exact hl.1 a ha
      · exact ih hl.2

theorem mem_stableSortT (l : List (String × String)) (a : String × String) :
    a ∈ stableSortT l ↔ a ∈ l := by
  suffices h : ∀ acc, a ∈ l.foldl (fun acc x => insByT x acc) acc ↔ a ∈ acc ∨ a ∈ l by
    have := h []
    simpa [stableSortT] using this
  induction l with
  | nil => intro acc; simp
  | cons y ys ih =>
    intro acc
    simp only [List.foldl_cons, ih, mem_insByT, List.mem_cons]
    tauto

theorem sorted_stableSortT (l : List (String × String)) :
    (stableSortT l).Pairwise (fun a b => jsStrLt b.2 a.2 = false) := by
  suffices h : ∀ acc, acc.Pairwise (fun a b => jsStrLt b.2 a.2 = false) →
      (l.foldl (fun acc x => insByT x acc) acc).Pairwise
        (fun a b => jsStrLt b.2 a.2 = false) by
    exact h [] (by simp)
  induction l with
  | nil => intro acc hacc; simpa using hacc
  | cons y ys ih =>
    intro acc hacc
    exact ih _ (sorted_insByT y acc hacc)

theorem stableSortT_head_unique_min (l : List (String × String))
    (mp : String × String) (hmem : mp ∈ l)
    (hmin : ∀ q ∈ l, q ≠ mp → jsStrLt mp.2 q.2 = true) :
    ∃ t, stableSortT l = mp :: t := by
  have hs := sorted_stableSortT l
  have hm : mp ∈ stableSortT l := (mem_stableSortT l mp).mpr hmem
  cases hsl : stableSortT l with
  | nil => rw [hsl] at hm; cases hm
  | cons h t =>
    rw [hsl] at hm hs
    by_cases hhm : h = mp
    · exact ⟨t, by rw [hhm]⟩
    · exfalso
      have hhl : h ∈ l := (mem_stableSortT l h).mp (by rw [hsl]; simp)
      have hlt : jsStrLt mp.2 h.2 = true := hmin h hhl hhm
      have hmt : mp ∈ t := by
        rcases List.mem_cons.mp hm with rfl | hmt
        · exact absurd rfl hhm
        · exact hmt
      have hle : jsStrLt mp.2 h.2 = false := (List.pairwise_cons.mp hs).1 mp hmt
      rw [hlt] at hle
      cases hle

theorem hasProcessed_eq_false (l : List (String × LedgerEntry)) (k : String)
    (h : ∀ p ∈ l, p.1 ≠ k) : hasProcessed l k = false := by
  have hf : l.find? (fun p => p.1 == k) = none :=
    List.find?_eq_none.mpr (fun p hp => by simp [h p hp])
  simp [hasProcessed, hf]

theorem length_filter_ne_key (l : List (String × LedgerEntry)) (key : String)
    (hnodup : (l.map Prod.fst).Nodup) (m : String × LedgerEntry) (hm : m ∈ l)
    (hkey : m.1 = key) :
    (l.filter (fun p => p.1 ≠ key)).length = l.length - 1 := by
  induction l with
  | nil => cases hm
  | cons p rest ih =>
    rw [List.map_cons, List.nodup_cons] at hnodup
    by_cases hp : p.1 = key
    · have hrest : ∀ q ∈ rest, q.1 ≠ key := by
        intro q hq hqk
        exact hnodup.1 (by rw [hp, ← hqk]; exact List.mem_map.mpr ⟨q, hq, rfl⟩)
      have hself : rest.filter (fun p => p.1 ≠ key) = rest :=
        List.filter_eq_self.mpr (fun q hq => by simp [hrest q hq])
      have hfc : (p :: rest).filter (fun q => q.1 ≠ key) =
          rest.filter (fun q => q.1 ≠ key) := by
        simp [List.filter_cons, hp]
      rw [hfc, hself, List.length_cons]
      omega
    · have hmrest : m ∈ rest := by
        rcases List.mem_cons.mp hm with rfl | hmr
        · exact absurd hkey hp
        · exact hmr
      have hpos : 0 < rest.length := List.length_pos.mpr (List.ne_nil_of_mem hmrest)
      have hih := ih hnodup.2 hmrest
      have hfc : (p :: rest).filter (fun q => q.1 ≠ key) =
          p :: rest.filter (fun q => q.1 ≠ key) := by
        simp [List.filter_cons, hp]
      rw [hfc, List.length_cons, hih, List.length_cons]
      omega

/-- C5: with the ledger at its cap of `N` entries, marking an `(N+1)`-th
distinct key evicts exactly the entry with the oldest `lastSeenAt`,
leaving exactly `N` entries with the new key retained. -/
theorem mark_at_cap_evicts_oldest
    (N : Nat) (hN : 0 < N) (l : List (String × LedgerEntry)) (k now : String)
    (meta : JVal)
    (hlen : l.length = N)
    (hnodup : (l.map Prod.fst).Nodup)
    (hknew : ∀ p ∈ l, p.1 ≠ k)
    (m : String × LedgerEntry) (hm : m ∈ l)
    (hmin : ∀ p ∈ l, p.1 ≠ m.1 → jsStrLt (entryT m.2) (entryT p.2) = true)
    (hnow : jsStrLt (entryT m.2) now = true) (hne : now ≠ "") :
    markProcessed N now l k meta =
      l.filter (fun p => p.1 ≠ m.1) ++ [(k, ⟨now, now, meta⟩)] ∧
    (markProcessed N now l k meta).length = N ∧
    hasProcessed (markProcessed N now l k meta) k = true ∧
    hasProcessed (markProcessed N now l k meta) m.1 = false := by
  have hkm : k ≠ m.1 := fun h => hknew m hm (h ▸ rfl)
  have hfresh : hasProcessed l k = false := hasProcessed_eq_false l k hknew
  have hup : upsertEntry now l k meta = l ++ [(k, ⟨now, now, meta⟩)] := by
    unfold upsertEntry
    rw [hfresh]
    simp
  have hentryT : entryT (⟨now, now, meta⟩ : LedgerEntry) = now := by
    simp [entryT, jsOrStr, hne]
  have hmap : (l ++ [((k : String), (⟨now, now, meta⟩ : LedgerEntry))]).map
        (fun p => (p.1, entryT p.2)) =
      l.map (fun p => (p.1, entryT p.2)) ++ [(k, now)] := by
    simp [hentryT]
  have hmpmem : (m.1, entryT m.2) ∈
      (l.map (fun p => (p.1, entryT p.2)) ++ [(k, now)]) :=
    List.mem_append_left _ (List.mem_map.mpr ⟨m, hm, rfl⟩)
  have huniq : ∀ q ∈ (l.map (fun p => (p.1, entryT p.2)) ++ [(k, now)]),
      q ≠ (m.1, entryT m.2) → jsStrLt (m.1, entryT m.2).2 q.2 = true := by
    intro q hq hqne
    rcases List.mem_append.mp hq with hq | hq
    · rcases List.mem_map.mp hq with ⟨p, hp, rfl⟩
      by_cases hkey : p.1 = m.1
      · have hpm : p = m :=
          List.inj_on_of_nodup_map hnodup hp hm hkey
        exact absurd (by rw [hpm]) hqne
      · exact hmin p hp hkey
    · rw [List.mem_singleton] at hq
      rw [hq]
      exact hnow
  obtain ⟨t, hsort⟩ := stableSortT_head_unique_min _ _ hmpmem huniq
  have hlength : (l ++ [((k : String), (⟨now, now, meta⟩ : LedgerEntry))]).length
      = N + 1 := by
    simp [hlen]
  have hgt : N + 1 > N := by omega
  have htake : N + 1 - N = 1 := by omega
  have hres : markProcessed N now l k meta =
      l.filter (fun p => p.1 ≠ m.1) ++ [(k, ⟨now, now, meta⟩)] := by
    unfold markProcessed
    rw [hup]
    simp only [hmap, hsort, hlength, htake, hgt, if_true]
    rw [List.filter_append]
    congr 1
    · apply List.filter_congr
      intro p hp
      simp
    · simpa using hkm
  refine ⟨hres, ?_, ?_, ?_⟩
  · rw [hres, List.length_append,
      length_filter_ne_key l m.1 hnodup m hm rfl, hlen]
    simp
    omega
  · rw [hres]
    exact hasProcessed_append_self _ _ _
  · rw [hres]
    apply hasProcessed_eq_false
    intro p hp
    rcases List.mem_append.mp hp with hp | hp
    · exact fun h => absurd h (by simpa using (List.of_mem_filter hp))
    · rw [List.mem_singleton] at hp
      rw [hp]
      exact hkm

/-- C7: the relay dispatcher returns `not_configured` with zero HTTP calls
when no URL is configured; with a URL it issues exactly one POST and
classifies strictly by status: 2xx delivered, anything else failed with
status and body; no retries. -/
theorem relay_dispatcher_outcomes (url : Option String) (resp : HttpResponse) :
    (truthyStr url = false →
      relayToApple url resp =
        ({ sent := false, status := "not_configured", httpStatus := none,
           responseText := none }, 0)) ∧
    (truthyStr url = true →
      (relayToApple url resp).2 = 1 ∧
      (responseOk resp = true →
        (relayToApple url resp).1 =
          { sent := true, status := "ok", httpStatus := some resp.status,
            responseText := some resp.body }) ∧
      (responseOk resp = false →
        (relayToApple url resp).1 =
          { sent := false, status := "error", httpStatus := some resp.status,
            responseText := some resp.body })) := by
  unfold relayToApple
  by_cases hu : truthyStr url <;> by_cases ho : responseOk resp <;>
    simp [hu, ho]

/-- Witness for C7: no URL, a 204 delivery, and a 503 failure. -/
theorem relay_dispatcher_outcomes_witness :
    relayToApple none ⟨200, "ok"⟩ =
      ({ sent := false, status := "not_configured", httpStatus := none,
         responseText := none }, 0) ∧
    (relayToApple (some "https://apple.example/hook") ⟨204, ""⟩).1 =
      { sent := true, status := "ok", httpStatus := some 204,
        responseText := some "" } ∧
    (relayToApple (some "https://apple.example/hook") ⟨503, "down"⟩).1 =
      { sent := false, status := "error", httpStatus := some 503,
        responseText := some "down" } :=
  ⟨(relay_dispatcher_outcomes none ⟨200, "ok"⟩).1 rfl,
   ((relay_dispatcher_outcomes (some "https://apple.example/hook")
      ⟨204, ""⟩).2 rfl).2.1 rfl,
   ((relay_dispatcher_outcomes (some "https://apple.example/hook")
      ⟨503, "down"⟩).2 rfl).2.2 rfl⟩

/-- C10: a create-task request with a non-empty `dueDate` always sends
`dueDateTime = {dateTime: dueDate + "T17:00:00", timeZone: "America/Chicago"}`
(constants hard-coded in `createMicrosoftTask`, independent of the relay
path's configured default start time or timezone); without a `dueDate` the
field is omitted. -/
theorem create_task_due_constants (td : TaskData) :
    (∀ d, td.dueDate = some d → d ≠ "" →
      (createTaskRequestBody td).dueDateTime =
        some ⟨d ++ "T17:00:00", "America/Chicago"⟩) ∧
    (td.dueDate = none → (createTaskRequestBody td).dueDateTime = none) := by
  constructor
  · intro d hd hne
    simp [createTaskRequestBody, hd, hne]
  · intro hd
    simp [createTaskRequestBody, hd]

/-- Witness for C10 at a concrete task. -/
theorem create_task_due_constants_witness :
    (createTaskRequestBody
      { title := "Buy milk", dueDate := some "2025-12-15" }).dueDateTime =
      some ⟨"2025-12-15T17:00:00", "America/Chicago"⟩ ∧
    (createTaskRequestBody { title := "Buy milk" }).dueDateTime = none :=
  ⟨(create_task_due_constants
      { title := "Buy milk", dueDate := some "2025-12-15" }).1
      "2025-12-15" rfl (by decide),
   (create_task_due_constants { title := "Buy milk" }).2 rfl⟩

/-- C4 counterexample: with a valid payload, no cached account, no legacy
file and the interactive flow never completed, `/promoteTask` does NOT
return an authentication-required error: it answers HTTP 200 with status
`stubbed` (and zero create calls). -/
theorem unauth_promote_not_error_counterexample :
    promoteTask rawMilk (isAuthenticated true [] false) (.err "unused") =
      (.stubbed (normalizeTaskPayload rawMilk), 0) ∧
    promoteStatusField
      (promoteTask rawMilk (isAuthenticated true [] false) (.err "unused")).1 =
      "stubbed" ∧
    promoteStatusField
      (promoteTask rawMilk (isAuthenticated true [] false) (.err "unused")).1 ≠
      "error" ∧
    promoteHttpStatus
      (promoteTask rawMilk (isAuthenticated true [] false) (.err "unused")).1 =
      200 :=
  ⟨rfl, rfl, by decide, rfl⟩

/-- C4 (amended): with a valid payload, no cached account and no legacy
refresh-token file, `/promoteTask` answers with the 200 `stubbed`
acceptance (guidance to run the interactive setup) and issues zero remote
task-create calls. -/
theorem unauth_promote_stubbed_no_create (raw : JVal) (cc : Bool)
    (create : CreateResult)
    (hvalid : validateTaskPayload raw = []) :
    promoteTask raw (isAuthenticated cc [] false) create =
      (.stubbed (normalizeTaskPayload raw), 0) := by
  have hauth : isAuthenticated cc [] false = false := by cases cc <;> rfl
  unfold promoteTask
  rw [hvalid, hauth]
  simp

/-- Witness for the amended C4. -/
theorem unauth_promote_stubbed_no_create_witness :
    promoteTask rawMilk (isAuthenticated true [] false) (.err "unused") =
      (.stubbed (normalizeTaskPayload rawMilk), 0) :=
  unauth_promote_stubbed_no_create rawMilk true (.err "unused") rfl

/-- C9: a store file that exists but holds unparseable JSON or a non-object
JSON value loads as the empty ledger (`has` is false for every key) and the
next `mark` writes back a fresh `{version: 1, processed: {key: entry}}`
store. -/
theorem corrupt_store_loads_empty (fc : FileContent) (k now : String)
    (meta : JVal) (max : Nat) (hmax : 0 < max)
    (hbad : fc = .invalidJson ∨
      ∃ v, fc = .parsed v ∧ (jsTruthy v = false ∨ typeofObject v = false)) :
    (∀ key, hasFile fc key = false) ∧
    markFile max now fc k meta = ⟨.num 1, [(k, ⟨now, now, meta⟩)]⟩ := by
  have hload : loadStore fc = ⟨.num 1, []⟩ := by
    rcases hbad with rfl | ⟨v, rfl, hv⟩
    · rfl
    · unfold loadStore
      rcases hv with hv | hv <;> simp [hv]
  constructor
  · intro key
    simp [hasFile, hload, hasProcessed]
  · unfold markFile
    rw [hload]
    have := markProcessed_no_evict max now [] k meta rfl (by simpa using hmax)
    simp only [this]
    rfl

/-- Witness for C9: a truthy non-object file value and an unparseable file. -/
theorem corrupt_store_loads_empty_witness :
    hasFile (.parsed (.str "oops")) "k1" = false ∧
    markFile 5000 "2025-01-01T00:00:00Z" (.parsed (.str "oops")) "k1" .null =
      ⟨.num 1, [("k1", ⟨"2025-01-01T00:00:00Z", "2025-01-01T00:00:00Z", .null⟩)]⟩ ∧
    hasFile .invalidJson "k1" = false :=
  ⟨(corrupt_store_loads_empty (.parsed (.str "oops")) "k1"
      "2025-01-01T00:00:00Z" .null 5000 (by decide)
      (Or.inr ⟨.str "oops", rfl, Or.inr rfl⟩)).1 "k1",
   (corrupt_store_loads_empty (.parsed (.str "oops")) "k1"
      "2025-01-01T00:00:00Z" .null 5000 (by decide)
      (Or.inr ⟨.str "oops", rfl, Or.inr rfl⟩)).2,
   (corrupt_store_loads_empty .invalidJson "k1"
      "2025-01-01T00:00:00Z" .null 5000 (by decide) (Or.inl rfl)).1 "k1"⟩

/-- C8 counterexample: a record whose only content is `categories: ["Work"]`
(no task id, no title) yields the 400 validation error, not the
`ignored: wrong category` verdict. -/
theorem wrong_category_unvalidated_error_counterexample :
    (handleTodoWebhook cfgRelay "2025-12-14T19:00:00Z" [] rawWorkOnly false
      ⟨200, "ok"⟩).1 =
      .badRequest ["id (Microsoft task id) is required", "title is required"] ∧
    (handleTodoWebhook cfgRelay "2025-12-14T19:00:00Z" [] rawWorkOnly false
      ⟨200, "ok"⟩).1 ≠ .ignoredNotPersonal :=
  ⟨rfl, by decide⟩

/-- C8 (amended): a record that passes minimal validation (id and title
present) and whose category labels contain none of the accepted `personal`
spellings always yields `ignored: wrong category` — never an error, never a
relayed event — with zero downstream HTTP calls and the ledger unchanged. -/
theorem wrong_category_ignored (c : Config) (now : String)
    (ledger : List (String × LedgerEntry)) (raw : JVal) (force : Bool)
    (resp : HttpResponse)
    (hid : (normalizePersonalTodoTask raw).microsoftTaskId ≠ none)
    (htitle : (normalizePersonalTodoTask raw).title ≠ none)
    (hcat : ∀ cat ∈ (normalizePersonalTodoTask raw).categories,
      jsToLower cat ≠ "personal" ∧ jsToLower cat ≠ "category:personal" ∧
      jsToLower cat ≠ "personal category") :
    handleTodoWebhook c now ledger raw force resp =
      (.ignoredNotPersonal, ledger, 0) := by
  have hp : isPersonalCategory (normalizePersonalTodoTask raw) = false := by
    unfold isPersonalCategory
    simp only [Bool.or_eq_false_iff]
    refine ⟨⟨?_, ?_⟩, ?_⟩ <;> simp
    · intro cat hc
      exact (hcat cat hc).1
    · intro cat hc
      exact (hcat cat hc).2.1
    · intro cat hc
      exact (hcat cat hc).2.2
  unfold handleTodoWebhook
  simp only [Option.isNone_iff_eq_none]
  simp [hid, htitle, hp]

/-- Witness for the amended C8 at a validated Work-category payload. -/
theorem wrong_category_ignored_witness :
    handleTodoWebhook cfgRelay "2025-12-14T19:00:00Z" [] rawWorkValid false
      ⟨200, "ok"⟩ = (.ignoredNotPersonal, [], 0) :=
  wrong_category_ignored cfgRelay "2025-12-14T19:00:00Z" [] rawWorkValid false
    ⟨200, "ok"⟩ (by decide) (by decide) (by decide)

/-- C6: start-instant normalization.  (a) a record whose due information is a
bare date `D` gets start instant `D ++ "T" ++ defaultStartTime ++ ":00"` and
no record-level timezone override (the event timezone falls back to the
configured default); (b) an explicit `dueDateTime: {dateTime, timeZone}`
object is carried verbatim (for whitespace-stable non-empty fields); (c) a
record with neither yields a null start instant. -/
theorem start_instant_normalization (c : Config) :
    (∀ raw D, (normalizePersonalTodoTask raw).due =
        { dueDate := some D, dueDateTime := none, timeZone := none } →
      (buildAppleEventPayload c (normalizePersonalTodoTask raw)).startDateTime =
        some (D ++ "T" ++ getDefaultStartTime c ++ ":00") ∧
      (buildAppleEventPayload c (normalizePersonalTodoTask raw)).timeZone =
        jsOrOpt (asNonEmptyStringJ (c.defaultTimeZone.map JVal.str))
          (asNonEmptyStringJ (c.timezone.map JVal.str))) ∧
    (∀ raw dt tz,
      jLookup raw "dueDateTime" =
        some (.obj [("dateTime", .str dt), ("timeZone", .str tz)]) →
      jsTrim dt = dt → dt ≠ "" → jsTrim tz = tz → tz ≠ "" →
      (buildAppleEventPayload c (normalizePersonalTodoTask raw)).startDateTime =
        some dt ∧
      (buildAppleEventPayload c (normalizePersonalTodoTask raw)).timeZone =
        some tz) ∧
    (∀ raw, (normalizePersonalTodoTask raw).due.dueDate = none →
      (normalizePersonalTodoTask raw).due.dueDateTime = none →
      (buildAppleEventPayload c (normalizePersonalTodoTask raw)).startDateTime =
        none) := by
  refine ⟨?_, ?_, ?_⟩
  · intro raw D h
    constructor
    · simp [buildAppleEventPayload, h, buildStartDateTime]
    · simp [buildAppleEventPayload, h, jsOrOpt]
  · intro raw dt tz hlk htdt hdtne httz htzne
    have hdd : (normalizePersonalTodoTask raw).due.dueDateTime = some dt := by
      show (normalizeDue raw).dueDateTime = some dt
      unfold normalizeDue
      simp only [hlk]
      simp [jsTruthy, typeofObject, jLookupOpt, jLookup, List.find?,
        asNonEmptyStringJ, htdt, hdtne, jsOrOpt]
    have htzd : (normalizePersonalTodoTask raw).due.timeZone = some tz := by
      show (normalizeDue raw).timeZone = some tz
      unfold normalizeDue
      simp only [hlk]
      simp [jsTruthy, typeofObject, jLookupOpt, jLookup, List.find?,
        asNonEmptyStringJ, httz, htzne, jsOrOpt]
    constructor
    · simp [buildAppleEventPayload, buildStartDateTime, hdd]
    · simp [buildAppleEventPayload, jsOrOpt, htzd]
  · intro raw h1 h2
    simp [buildAppleEventPayload, buildStartDateTime, h1, h2]

/-- Witness for C6: the spec's round-trip examples with the default
configuration (default start time `08:00`, no configured timezone). -/
theorem start_instant_normalization_witness :
    (buildAppleEventPayload {} (normalizePersonalTodoTask
        (.obj [("dueDate", .str "2025-12-15")]))).startDateTime =
      some "2025-12-15T08:00:00" ∧
    (buildAppleEventPayload {} (normalizePersonalTodoTask
        (.obj [("dueDate", .str "2025-12-15")]))).timeZone = none ∧
    (buildAppleEventPayload {} (normalizePersonalTodoTask rawDueObj)).startDateTime =
      some "2025-12-15T09:30:00" ∧
    (buildAppleEventPayload {} (normalizePersonalTodoTask rawDueObj)).timeZone =
      some "America/Chicago" ∧
    (buildAppleEventPayload {} (normalizePersonalTodoTask
        (.obj [("title", .str "No due")]))).startDateTime = none :=
  have h := start_instant_normalization {}
  have h1 := h.1 (.obj [("dueDate", .str "2025-12-15")]) "2025-12-15" rfl
  have h2 := h.2.1 rawDueObj "2025-12-15T09:30:00" "America/Chicago" rfl rfl
    (by decide) rfl (by decide)
  have h3 := h.2.2 (.obj [("title", .str "No due")]) rfl rfl
  ⟨h1.1, h1.2, h2.1, h2.2, h3⟩

theorem flights_cases (fls : List FlightPhase) (h : fls.length ≤ 1) :
    fls = [] ∨ ∃ f, fls = [f] := by
  match fls with
  | [] => exact Or.inl rfl
  | [f] => exact Or.inr ⟨f, rfl⟩
  | a :: b :: t => simp at h

theorem singleton_getElem (f ph : FlightPhase) (fid : Nat)
    (h : ([f] : List FlightPhase)[fid]? = some ph) : fid = 0 ∧ ph = f := by
  cases fid with
  | zero => simp at h; exact ⟨rfl, h.symm⟩
  | succ n => simp at h

theorem authInv_and (canArr b : Bool) (s : AuthSys) (h : AuthInv canArr s) :
    AuthInv (canArr && b) s := by
  obtain ⟨h1, h2, h3, h4⟩ := h
  refine ⟨h1, h2, ?_, h4⟩
  intro hb
  exact h3 (by revert hb; cases canArr <;> cases b <;> simp)

theorem stepAuth_preserves_inv (canArr : Bool) (s : AuthSys) (lbl : AuthLabel)
    (hInv : AuthInv canArr s) (hlbl : (canArr || ¬ isArriveL lbl) = true) :
    AuthInv (canArr && ¬ isCompleteL lbl) (stepAuth s lbl) := by
  obtain ⟨h1, h2, h3, h4⟩ := hInv
  cases lbl with
  | arrive i =>
    have hca : canArr = true := by simpa [isArriveL] using hlbl
    subst hca
    simp only [isCompleteL, Bool.not_false, Bool.and_true]
    cases hc : s.callers[i]? with
    | none => simpa [stepAuth, hc] using ⟨h1, h2, h3, h4⟩
    | some cst =>
      cases cst with
      | idle =>
        cases hif : s.inFlight with
        | some fid =>
          have hstep : stepAuth s (.arrive i) =
              { s with callers := s.callers.set i (.waiting fid) } := by
            simp [stepAuth, hc, hif]
          rw [hstep]
          refine ⟨h1, h2, ?_, ?_⟩
          · intro _
            refine ⟨(h3 rfl).1, ?_, ?_⟩
            · intro c hcmem
              rcases List.mem_or_eq_of_mem_set hcmem with hcm | rfl
              · exact (h3 rfl).2.1 c hcm
              · rfl
            · intro hnone
              rw [hif] at hnone
              cases hnone
          · rintro ⟨c, hcmem, hcd⟩
            rcases List.mem_or_eq_of_mem_set hcmem with hcm | rfl
            · exact absurd hcd (by simp [(h3 rfl).2.1 c hcm])
            · simp [isCreatorDone] at hcd
        | none =>
          have hfls : s.flights = [] := (h3 rfl).2.2 hif
          have hstep : stepAuth s (.arrive i) =
              { s with inFlight := some s.flights.length,
                       flights := s.flights ++ [.silentPending],
                       callers := s.callers.set i (.creator s.flights.length) } := by
            simp [stepAuth, hc, hif]
          rw [hstep]
          have hch : s.challenges = 0 := by simpa [hfls] using h2
          refine ⟨?_, ?_, ?_, ?_⟩
          · simp [hfls]
          · simp [hfls, hch, reachedInteractive]
          · intro _
            refine ⟨?_, ?_, ?_⟩
            · intro f hf
              rw [hfls] at hf
              simp at hf
              rw [hf]
              rfl
            · intro c hcmem
              rcases List.mem_or_eq_of_mem_set hcmem with hcm | rfl
              · exact (h3 rfl).2.1 c hcm
              · rfl
            · intro hnone
              cases hnone
          · rintro ⟨c, hcmem, hcd⟩
            rcases List.mem_or_eq_of_mem_set hcmem with hcm | rfl
            · exact absurd hcd (by simp [(h3 rfl).2.1 c hcm])
            · simp [isCreatorDone] at hcd
      | waiting fid => simpa [stepAuth, hc] using ⟨h1, h2, h3, h4⟩
      | creator fid => simpa [stepAuth, hc] using ⟨h1, h2, h3, h4⟩
      | creatorDone ok => simpa [stepAuth, hc] using ⟨h1, h2, h3, h4⟩
      | joinerDone ok => simpa [stepAuth, hc] using ⟨h1, h2, h3, h4⟩
  | silentResolved fid =>
    apply authInv_and
    cases hf : s.flights[fid]? with
    | none => simpa [stepAuth, hf] using ⟨h1, h2, h3, h4⟩
    | some ph =>
      cases ph with
      | silentPending =>
        rcases flights_cases s.flights h1 with hfls | ⟨f, hfls⟩
        · rw [hfls] at hf; simp at hf
        · obtain ⟨rfl, hphf⟩ := singleton_getElem f _ fid (hfls ▸ hf)
          have hstep : stepAuth s (.silentResolved 0) =
              { s with flights := s.flights.set 0 .legacyPending } := by
            simp [stepAuth, hf]
          rw [hstep]
          have hch : s.challenges = 0 := by
            simpa [hfls, ← hphf, reachedInteractive] using h2
          refine ⟨by simpa using h1, ?_, ?_, h4⟩
          · simp [hfls, hch, reachedInteractive]
          · intro hca
            refine ⟨?_, (h3 hca).2.1, ?_⟩
            · intro g hg
              rw [hfls] at hg
              simp at hg
              rw [hg]
              rfl
            · intro hnone
              have := (h3 hca).2.2 hnone
              rw [hfls] at this
              cases this
      | legacyPending => simpa [stepAuth, hf] using ⟨h1, h2, h3, h4⟩
      | interactivePending => simpa [stepAuth, hf] using ⟨h1, h2, h3, h4⟩
      | completed ok => simpa [stepAuth, hf] using ⟨h1, h2, h3, h4⟩
  | legacyResolved fid =>
    apply authInv_and
    cases hf : s.flights[fid]? with
    | none => simpa [stepAuth, hf] using ⟨h1, h2, h3, h4⟩
    | some ph =>
      cases ph with
      | legacyPending =>
        rcases flights_cases s.flights h1 with hfls | ⟨f, hfls⟩
        · rw [hfls] at hf; simp at hf
        · obtain ⟨rfl, hphf⟩ := singleton_getElem f _ fid (hfls ▸ hf)
          have hstep : stepAuth s (.legacyResolved 0) =
              { s with flights := s.flights.set 0 .interactivePending,
                       challenges := s.challenges + 1 } := by
            simp [stepAuth, hf]
          rw [hstep]
          have hch : s.challenges = 0 := by
            simpa [hfls, ← hphf, reachedInteractive] using h2
          refine ⟨by simpa using h1, ?_, ?_, h4⟩
          · simp [hfls, hch, reachedInteractive]
          · intro hca
            refine ⟨?_, (h3 hca).2.1, ?_⟩
            · intro g hg
              rw [hfls] at hg
              simp at hg
              rw [hg]
              rfl
            · intro hnone
              have := (h3 hca).2.2 hnone
              rw [hfls] at this
              cases this
      | silentPending => simpa [stepAuth, hf] using ⟨h1, h2, h3, h4⟩
      | interactivePending => simpa [stepAuth, hf] using ⟨h1, h2, h3, h4⟩
      | completed ok => simpa [stepAuth, hf] using ⟨h1, h2, h3, h4⟩
  | providerResolved fid ok =>
    cases hf : s.flights[fid]? with
    | none =>
      exact authInv_and _ _ _ (by simpa [stepAuth, hf] using ⟨h1, h2, h3, h4⟩)
    | some ph =>
      cases ph with
      | interactivePending =>
        have hfalse : (canArr &&
            ¬ isCompleteL (AuthLabel.providerResolved fid ok)) = false := by
          simp [isCompleteL]
        rw [hfalse]
        rcases flights_cases s.flights h1 with hfls | ⟨f, hfls⟩
        · rw [hfls] at hf; simp at hf
        · obtain ⟨rfl, hphf⟩ := singleton_getElem f _ fid (hfls ▸ hf)
          have hstep : stepAuth s (.providerResolved 0 ok) =
              { s with flights := s.flights.set 0 (.completed ok) } := by
            simp [stepAuth, hf]
          rw [hstep]
          have hch : s.challenges = 1 := by
            simpa [hfls, ← hphf, reachedInteractive] using h2
          refine ⟨by simpa using h1, ?_, by simp, h4⟩
          simp [hfls, hch, reachedInteractive]
      | silentPending =>
        exact authInv_and _ _ _ (by simpa [stepAuth, hf] using ⟨h1, h2, h3, h4⟩)
      | legacyPending =>
        exact authInv_and _ _ _ (by simpa [stepAuth, hf] using ⟨h1, h2, h3, h4⟩)
      | completed ok2 =>
        exact authInv_and _ _ _ (by simpa [stepAuth, hf] using ⟨h1, h2, h3, h4⟩)
  | creatorResume i =>
    apply authInv_and
    cases hc : s.callers[i]? with
    | none => simpa [stepAuth, hc] using ⟨h1, h2, h3, h4⟩
    | some cst =>
      cases cst with
      | creator fid =>
        cases hf : s.flights[fid]? with
        | none => simpa [stepAuth, hc, hf] using ⟨h1, h2, h3, h4⟩
        | some ph =>
          cases ph with
          | completed ok =>
            have hstep : stepAuth s (.creatorResume i) =
                { s with callers := s.callers.set i (.creatorDone ok),
                         inFlight := none } := by
              simp [stepAuth, hc, hf]
            rw [hstep]
            have hnotArr : canArr = false := by
              cases hca : canArr
              · rfl
              · exfalso
                rcases flights_cases s.flights h1 with hfls | ⟨f, hfls⟩
                · rw [hfls] at hf; simp at hf
                · obtain ⟨rfl, hphf⟩ := singleton_getElem f _ fid (hfls ▸ hf)
                  have := (h3 hca).1 f (by rw [hfls]; simp)
                  rw [← hphf] at this
                  simp [notCompletedPhase] at this
            subst hnotArr
            refine ⟨h1, h2, by simp, ?_⟩
            intro _
            rfl
          | silentPending => simpa [stepAuth, hc, hf] using ⟨h1, h2, h3, h4⟩
          | legacyPending => simpa [stepAuth, hc, hf] using ⟨h1, h2, h3, h4⟩
          | interactivePending => simpa [stepAuth, hc, hf] using ⟨h1, h2, h3, h4⟩
      | idle => simpa [stepAuth, hc] using ⟨h1, h2, h3, h4⟩
      | waiting fid => simpa [stepAuth, hc] using ⟨h1, h2, h3, h4⟩
      | creatorDone ok => simpa [stepAuth, hc] using ⟨h1, h2, h3, h4⟩
      | joinerDone ok => simpa [stepAuth, hc] using ⟨h1, h2, h3, h4⟩
  | joinerResume i =>
    apply authInv_and
    cases hc : s.callers[i]? with
    | none => simpa [stepAuth, hc] using ⟨h1, h2, h3, h4⟩
    | some cst =>
      cases cst with
      | waiting fid =>
        cases hf : s.flights[fid]? with
        | none => simpa [stepAuth, hc, hf] using ⟨h1, h2, h3, h4⟩
        | some ph =>
          cases ph with
          | completed ok =>
            have hstep : stepAuth s (.joinerResume i) =
                { s with callers := s.callers.set i (.joinerDone ok) } := by
              simp [stepAuth, hc, hf]
            rw [hstep]
            refine ⟨h1, h2, ?_, ?_⟩
            · intro hca
              exfalso
              rcases flights_cases s.flights h1 with hfls | ⟨f, hfls⟩
              · rw [hfls] at hf; simp at hf
              · obtain ⟨rfl, hphf⟩ := singleton_getElem f _ fid (hfls ▸ hf)
                have := (h3 hca).1 f (by rw [hfls]; simp)
                rw [← hphf] at this
                simp [notCompletedPhase] at this
            · rintro ⟨c, hcmem, hcd⟩
              rcases List.mem_or_eq_of_mem_set hcmem with hcm | rfl
              · exact h4 ⟨c, hcm, hcd⟩
              · simp [isCreatorDone] at hcd
          | silentPending => simpa [stepAuth, hc, hf] using ⟨h1, h2, h3, h4⟩
          | legacyPending => simpa [stepAuth, hc, hf] using ⟨h1, h2, h3, h4⟩
          | interactivePending => simpa [stepAuth, hc, hf] using ⟨h1, h2, h3, h4⟩
      | idle => simpa [stepAuth, hc] using ⟨h1, h2, h3, h4⟩
      | creator fid => simpa [stepAuth, hc] using ⟨h1, h2, h3, h4⟩
      | creatorDone ok => simpa [stepAuth, hc] using ⟨h1, h2, h3, h4⟩
      | joinerDone ok => simpa [stepAuth, hc] using ⟨h1, h2, h3, h4⟩

theorem runAuth_inv (tr : List AuthLabel) :
    ∀ (canArr : Bool) (s : AuthSys), AuthInv canArr s →
      okTrace canArr tr = true → ∃ b, AuthInv b (runAuth s tr) := by
  induction tr with
  | nil => exact fun canArr s hInv _ => ⟨canArr, hInv⟩
  | cons lbl rest ih =>
    intro canArr s hInv htr
    rw [okTrace] at htr
    rw [Bool.and_eq_true] at htr
    exact ih _ (stepAuth s lbl)
      (stepAuth_preserves_inv canArr s lbl hInv htr.1) htr.2

theorem initAuth_inv (n : Nat) : AuthInv true (initAuth n) := by
  refine ⟨by simp [initAuth], by simp [initAuth, reachedInteractive], ?_, ?_⟩
  · intro _
    refine ⟨by simp [initAuth], ?_, fun _ => rfl⟩
    intro c hc
    rw [initAuth] at hc
    simp only at hc
    rw [List.eq_of_mem_replicate hc]
    rfl
  · rintro ⟨c, hc, hcd⟩
    rw [initAuth] at hc
    simp only at hc
    rw [List.eq_of_mem_replicate hc] at hcd
    simp [isCreatorDone] at hcd

/-- C3: under the premise of no cached account and no legacy refresh-token
file (baked into the flight semantics), (1) every schedule in which all
`getAccessToken` calls arrive before the shared flight completes issues at
most one device-code challenge; (2) in the resulting state, once the
creator has resumed (the `finally` ran) the in-flight handle is `none`;
(3) a call entering while a flight is in flight always joins it — it awaits
that flight instead of starting an independent attempt; and (4) the
happy-path schedule of three concurrent callers ends with exactly one
challenge, the handle cleared, and every caller finished with the shared
result. -/
theorem single_acquisition_flight (n : Nat) (tr : List AuthLabel)
    (htr : okTrace true tr = true) :
    (runAuth (initAuth n) tr).challenges ≤ 1 ∧
    ((∃ c ∈ (runAuth (initAuth n) tr).callers, isCreatorDone c = true) →
      (runAuth (initAuth n) tr).inFlight = none) ∧
    (∀ (s : AuthSys) (i fid : Nat), s.inFlight = some fid →
      s.callers[i]? = some .idle →
      stepAuth s (.arrive i) =
        { s with callers := s.callers.set i (.waiting fid) }) ∧
    runAuth (initAuth 3) demoTrace = demoFinal := by
  obtain ⟨b, h1, h2, _, h4⟩ := runAuth_inv tr true (initAuth n) (initAuth_inv n) htr
  refine ⟨?_, h4, ?_, by decide⟩
  · rw [h2]
    exact le_trans (List.length_filter_le _ _) h1
  · intro s i fid hif hc
    simp [stepAuth, hc, hif]

/-- Witness for C3 at the concrete three-caller schedule. -/
theorem single_acquisition_flight_witness :
    (runAuth (initAuth 3) demoTrace).challenges ≤ 1 ∧
    runAuth (initAuth 3) demoTrace = demoFinal :=
  ⟨(single_acquisition_flight 3 demoTrace (by decide)).1,
   (single_acquisition_flight 3 demoTrace (by decide)).2.2.2⟩

/-- Witness for C5: cap 2, third distinct key; the oldest entry `k1` is
evicted, the ledger stays at two entries, and the new key is retained. -/
theorem mark_at_cap_evicts_oldest_witness :
    markProcessed 2 "2025-01-03T00:00:00Z" ledgerTwo "k3" .null =
      ledgerTwo.filter (fun p => p.1 ≠ "k1") ++
        [("k3", ⟨"2025-01-03T00:00:00Z", "2025-01-03T00:00:00Z", .null⟩)] ∧
    (markProcessed 2 "2025-01-03T00:00:00Z" ledgerTwo "k3" .null).length = 2 ∧
    hasProcessed (markProcessed 2 "2025-01-03T00:00:00Z" ledgerTwo "k3" .null)
      "k3" = true ∧
    hasProcessed (markProcessed 2 "2025-01-03T00:00:00Z" ledgerTwo "k3" .null)
      "k1" = false :=
  mark_at_cap_evicts_oldest 2 (by decide) ledgerTwo "k3" "2025-01-03T00:00:00Z"
    .null rfl (by decide) (by decide) ("k1", entryJan1)
    (by simp [ledgerTwo]) (by decide) (by decide) (by decide)

end Bridge
